import Mathlib

/-!
Verification development for the meet-display server (src/server.js).

The definitions below are a shallow embedding of the ingestion-and-scoring
pipeline of `server.js`: raw CouchDB rows are projected into typed entities,
attempts are linked into per-lifter discipline slots, best lifts / totals /
placings are derived, referee lights are aggregated, and snapshots are
broadcast to viewers.

Modelling conventions:
* JS numbers are modelled as `ℚ` (weights and bodyweights are decimal kg
  values); machine identifiers and labels as `String`.
* A possibly-absent (`undefined`/`null`) JS value is an `Option`.
* JS objects keyed by `_id` are association lists `List (String × α)` with
  insert-or-overwrite semantics (`upsertA`); iteration order is insertion
  order, as for string-keyed JS objects.
* JS `Array.prototype.sort` (stable since ES2019) is modelled by the stable
  insertion sort `sortLe` below, with the comparator translated to a boolean
  "comes-before-or-ties" relation.
* A thrown JS exception (there is exactly one reachable site, in
  `processAttempts`) is modelled by `Except`.
-/

/-- Character-list prefix test (`String.prototype.startsWith`). -/
def charsStart : List Char → List Char → Bool
  | _, [] => true
  | [], _ :: _ => false
  | c :: cs, d :: ds => c = d && charsStart cs ds

/-- `s.startsWith(p)` on the underlying character lists. -/
def strStarts (s p : String) : Bool := charsStart s.data p.data

/-- `String.prototype.toUpperCase` (ASCII, which covers every label the
server compares). -/
def strUpper (s : String) : String := String.mk (s.data.map Char.toUpper)

/-- `String.prototype.toLowerCase` (ASCII). -/
def strLower (s : String) : String := String.mk (s.data.map Char.toLower)

/-- Lexicographic comparison of character lists. -/
def charsLe : List Char → List Char → Bool
  | [], _ => true
  | _ :: _, [] => false
  | c :: cs, d :: ds =>
    if c < d then true else if d < c then false else charsLe cs ds

/-- Lexicographic string order, the model of
`a.localeCompare(b) ≤ 0` for the plain labels the server sorts by. -/
def strLe (a b : String) : Bool := charsLe a.data b.data

/-- JS truthiness of a possibly-absent string: `undefined`, `null` and the
empty string are falsy. -/
def truthyS : Option String → Bool
  | none => false
  | some s => decide (s ≠ "")

/-- JS `x || dflt` for a possibly-absent string `x`. -/
def jsOrS (o : Option String) (dflt : String) : String :=
  match o with
  | some s => if s = "" then dflt else s
  | none => dflt

/-- JS `x || null` for a possibly-absent number `x` (`0` is falsy). -/
def jsOrNullQ (o : Option ℚ) : Option ℚ :=
  match o with
  | some v => if v = 0 then none else some v
  | none => none

/-- JS `x || null` for a possibly-absent string `x` (`""` is falsy). -/
def jsOrNullS (o : Option String) : Option String :=
  match o with
  | some s => if s = "" then none else some s
  | none => none

/-- `obj[k] = v` on a string-keyed JS object: overwrite in place if the key
exists (keeping its insertion position), else append. -/
def upsertA {α : Type} (m : List (String × α)) (k : String) (v : α) :
    List (String × α) :=
  if m.any (fun p => decide (p.1 = k)) then
    m.map (fun p => if p.1 = k then (k, v) else p)
  else m ++ [(k, v)]

/-- Object lookup `m[k]` on a string-keyed JS object. -/
def lookupA {α : Type} (m : List (String × α)) (k : String) : Option α :=
  (m.find? (fun p => decide (p.1 = k))).map Prod.snd

/-- Insert `x` into `l` before the first element `y` with `le x y`.
Together with `sortLe` this is a stable sort, the behaviour of JS
`Array.prototype.sort` under a consistent comparator. -/
def insertLe {α : Type} (le : α → α → Bool) (x : α) : List α → List α
  | [] => [x]
  | y :: ys => if le x y then x :: y :: ys else y :: insertLe le x ys

/-- Stable insertion sort by the boolean relation `le`. -/
def sortLe {α : Type} (le : α → α → Bool) : List α → List α
  | [] => []
  | x :: xs => insertLe le x (sortLe le xs)

theorem insertLe_perm {α : Type} (le : α → α → Bool) (x : α) (l : List α) :
    (insertLe le x l).Perm (x :: l) := by
  induction l with
  | nil => exact List.Perm.refl _
  | cons y ys ih =>
    simp only [insertLe]
    split
    · exact List.Perm.refl _
    · exact (ih.cons y).trans (List.Perm.swap x y ys)

theorem sortLe_perm {α : Type} (le : α → α → Bool) (l : List α) :
    (sortLe le l).Perm l := by
  induction l with
  | nil => exact List.Perm.refl _
  | cons x xs ih =>
    exact (insertLe_perm le x (sortLe le xs)).trans (ih.cons x)

theorem insertLe_pairwise {α : Type} (le : α → α → Bool)
    (htot : ∀ a b : α, le a b = true ∨ le b a = true)
    (htrans : ∀ a b c : α, le a b = true → le b c = true → le a c = true)
    (x : α) (l : List α) (h : l.Pairwise fun a b => le a b = true) :
    (insertLe le x l).Pairwise fun a b => le a b = true := by
  induction l with
  | nil => simp [insertLe]
  | cons y ys ih =>
    rcases List.pairwise_cons.mp h with ⟨hy, hys⟩
    simp only [insertLe]
    split
    case isTrue hxy =>
      refine List.pairwise_cons.mpr ⟨?_, List.pairwise_cons.mpr ⟨hy, hys⟩⟩
      intro z hz
      rcases List.mem_cons.mp hz with rfl | hz
      · exact hxy
      · exact htrans x y z hxy (hy z hz)
    case isFalse hxy =>
      refine List.pairwise_cons.mpr ⟨?_, ih hys⟩
      intro z hz
      have hzmem : z ∈ x :: ys := (insertLe_perm le x ys).mem_iff.mp hz
      rcases List.mem_cons.mp hzmem with rfl | hz'
      · rcases htot z y with h1 | h1
        · exact absurd h1 hxy
        · exact h1
      · exact hy z hz'

theorem sortLe_pairwise {α : Type} (le : α → α → Bool)
    (htot : ∀ a b : α, le a b = true ∨ le b a = true)
    (htrans : ∀ a b c : α, le a b = true → le b c = true → le a c = true)
    (l : List α) :
    (sortLe le l).Pairwise fun a b => le a b = true := by
  induction l with
  | nil => simp [sortLe]
  | cons x xs ih => exact insertLe_pairwise le htot htrans x _ ih

theorem insertLe_map {α β : Type} (le : α → α → Bool) (le' : β → β → Bool)
    (f : α → β) (hle : ∀ a b : α, le' (f a) (f b) = le a b)
    (x : α) (l : List α) :
    insertLe le' (f x) (l.map f) = (insertLe le x l).map f := by
  induction l with
  | nil => rfl
  | cons y ys ih =>
    simp only [List.map, insertLe, hle]
    split
    · rfl
    · simp [List.map, ih]

theorem sortLe_map {α β : Type} (le : α → α → Bool) (le' : β → β → Bool)
    (f : α → β) (hle : ∀ a b : α, le' (f a) (f b) = le a b) (l : List α) :
    sortLe le' (l.map f) = (sortLe le l).map f := by
  induction l with
  | nil => rfl
  | cons x xs ih =>
    simp only [List.map, sortLe, ih]
    exact insertLe_map le le' f hle x (sortLe le xs)

/-! ## WeightClassResolver (`mapWeightClasses` / `getWeightClass`, server.js 87-118) -/

/-- A resolved weight-class label. JS renders these as strings:
`zero ↦ "0"`, `cls w ↦ w.toString()`, `clsPlus w ↦ w.toString() ++ "+"`.
We keep the parsed numeric content instead of modelling JS number
formatting. -/
inductive WCLabel where
  | zero
  | cls (w : ℚ)
  | clsPlus (w : ℚ)
deriving DecidableEq

/-- A federation's weight-class table, per sex.  Each configured class label
is carried as its `parseFloat` value after stripping a trailing `"+"`
(`none` models a label that parses to `NaN` and is filtered out,
server.js 96-99). -/
structure FedWeightClasses where
  male : List (Option ℚ)
  female : List (Option ℚ)
deriving DecidableEq

def ratLe (a b : ℚ) : Bool := decide (a ≤ b)

/-- Per-sex ascending numeric boundary lists (the `thresholds` object built
by `mapWeightClasses`).  Both keys are always assigned, possibly with an
empty list. -/
structure Thresholds where
  male : List ℚ
  female : List ℚ
deriving DecidableEq

/-- server.js 91-103: parse the configured classes, drop `NaN`s, sort
ascending (`.sort((a, b) => a - b)`). -/
def mapWeightClasses (cfg : FedWeightClasses) : Thresholds :=
  { male := sortLe ratLe (cfg.male.filterMap id),
    female := sortLe ratLe (cfg.female.filterMap id) }

/-- `thresholds[sex.toUpperCase()] || thresholds["MALE"]` (server.js 107).
Both `"MALE"` and `"FEMALE"` are always present in `thresholds` (a JS array,
even empty, is truthy), so the `||` fallback fires exactly when the
uppercased sex is neither key. -/
def tableFor (t : Thresholds) (sexU : String) : List ℚ :=
  if sexU = "MALE" then t.male
  else if sexU = "FEMALE" then t.female
  else t.male

/-- server.js 108-117: `"0"` for an empty boundary list; else the first
boundary `≥ bodyweight`; else the last boundary marked `+`. -/
def findClass (bw : ℚ) : List ℚ → WCLabel
  | [] => .zero
  | [w] => if bw ≤ w then .cls w else .clsPlus w
  | w :: w' :: rest => if bw ≤ w then .cls w else findClass bw (w' :: rest)

/-- server.js 105-117, `getWeightClass(sex, bodyweight)`.
`if (!bodyweight || !sex) return "0"`: an absent or `0` bodyweight and an
absent or empty sex are falsy. -/
def getWeightClass (t : Thresholds) (sex : Option String)
    (bodyweight : Option ℚ) : WCLabel :=
  match bodyweight, sex with
  | none, _ => .zero
  | _, none => .zero
  | some bw, some s =>
    if bw = 0 ∨ s = "" then .zero
    else findClass bw (tableFor t (strUpper s))

/-- The composed resolver: `mapWeightClasses(federation)` returns the
`getWeightClass` closure over the built thresholds. -/
def resolve (cfg : FedWeightClasses) (sex : Option String)
    (bodyweight : Option ℚ) : WCLabel :=
  getWeightClass (mapWeightClasses cfg) sex bodyweight

/-! ## Raw documents and rows (the CouchDB `_all_docs` payload) -/

/-- The JS value found at `doc.clockState`: either present but not an
object, or an object with a possibly-absent `remaining` field (`null` has
`typeof "object"` and `null?.remaining` is `undefined`, so it behaves like
`obj none`). -/
inductive ClockVal where
  | nonObj
  | obj (remaining : Option ℚ)
deriving DecidableEq

/-- An entry of a lifter document's `divisions` array. -/
structure DivisionRef where
  divisionId : Option String
deriving DecidableEq

/-- A raw, loosely-typed CouchDB document.  Every field the server reads is
carried as an `Option`; fields the server merely copies through
(`plates`, `cards`, `decisions`, ...) are carried opaquely as strings. -/
structure RawDoc where
  _id : Option String
  name : Option String
  date : Option String
  federation : Option String
  units : Option String
  plates : Option String
  dateFormat : Option String
  type : Option String
  clockState : Option ClockVal
  clockTimerLength : Option ℚ
  barAndCollarsWeight : Option ℚ
  currentAttemptId : Option String
  platformId : Option String
  position : Option String
  decision : Option String
  cards : Option String
  birthDate : Option String
  gender : Option String
  divisions : Option (List DivisionRef)
  bodyWeight : Option ℚ
  squatRackHeight : Option String
  benchRackHeight : Option String
  team : Option String
  lot : Option ℚ
  session : Option ℚ
  flight : Option String
  lifterId : Option String
  liftName : Option String
  attemptNumber : Option Int
  weight : Option ℚ
  result : Option String
  decisions : Option String
  createDate : Option String
deriving DecidableEq

/-- A raw document with every field absent; concrete documents are built by
updating it. -/
def emptyDoc : RawDoc :=
  { _id := none, name := none, date := none, federation := none,
    units := none, plates := none, dateFormat := none, type := none,
    clockState := none, clockTimerLength := none,
    barAndCollarsWeight := none, currentAttemptId := none,
    platformId := none, position := none, decision := none, cards := none,
    birthDate := none, gender := none, divisions := none, bodyWeight := none,
    squatRackHeight := none, benchRackHeight := none, team := none,
    lot := none, session := none, flight := none, lifterId := none,
    liftName := none, attemptNumber := none, weight := none, result := none,
    decisions := none, createDate := none }

/-- One row of the `_all_docs` response; `doc` is absent when the row
carries no document. -/
structure Row where
  doc : Option RawDoc
deriving DecidableEq

/-! ## Projected entities -/

/-- One discipline's three attempt slots plus the derived best
(JS keys `1`, `2`, `3`, `best`). -/
structure LiftSlots where
  a1 : ℚ
  a2 : ℚ
  a3 : ℚ
  best : ℚ
deriving DecidableEq

/-- A projected lifter (server.js 240-261).  The JS `records: {}` field is
always the empty object and is omitted. -/
structure Lifter where
  id : String
  name : String
  sex : String
  weightClass : WCLabel
  bodyweight : ℚ
  division : String
  divisionId : Option String
  squat : LiftSlots
  bench : LiftSlots
  deadlift : LiftSlots
  total : ℚ
  place : Option Nat
  squatRackHeight : String
  benchRackHeight : String
  team : String
  lot : Option ℚ
  platformId : Option String
  session : Option ℚ
  flight : String
deriving DecidableEq

/-- A projected attempt document (server.js 282-291). -/
structure Attempt where
  id : String
  lifterId : String
  liftName : String
  attemptNumber : Int
  weight : Option ℚ
  result : Option String
  decisions : Option String
  createDate : Option String
deriving DecidableEq

/-- A projected platform (server.js 154-167). -/
structure Platform where
  id : String
  name : String
  timerRemaining : ℚ
  clockTimerLength : Option ℚ
  barAndCollarsWeight : Option ℚ
  currentAttemptId : Option String
  lights : List Bool
deriving DecidableEq

/-- A projected referee (server.js 180-186). -/
structure Referee where
  id : String
  platformId : String
  position : String
  decision : Option String
  cards : Option String
deriving DecidableEq

/-- The fields copied off the meet-info document (server.js 126-134). -/
structure MeetBase where
  name : Option String
  date : Option String
  federation : Option String
  units : String
  plates : Option String
  dateFormat : Option String
  type : Option String
deriving DecidableEq

/-- `processMeetInfo`'s result: the (possibly missing) meet-info document's
fields plus the `extraStuff` list of `"e"`-prefixed documents (an empty
list models the key being absent, server.js 141-143). -/
structure MeetInfo where
  base : Option MeetBase
  extraStuff : List (String × RawDoc)
deriving DecidableEq

/-! ## EntityProjector (server.js 120-266) -/

/-- `doc?._id?.startsWith(p)`: absent `_id` is falsy. -/
def idStarts (d : RawDoc) (p : String) : Bool :=
  strStarts (d._id.getD "") p

/-- server.js 120-146, `processMeetInfo`. -/
def processMeetInfo (rows : List Row) : MeetInfo :=
  let mdoc := ((rows.find? (fun r =>
    match r.doc with
    | some d => idStarts d "m"
    | none => false)).bind Row.doc)
  let base := mdoc.map (fun d =>
    { name := d.name, date := d.date, federation := d.federation,
      units := jsOrS d.units "KG", plates := d.plates,
      dateFormat := d.dateFormat, type := d.type : MeetBase })
  let extras := ((rows.filterMap Row.doc).filter
    (fun d => idStarts d "e")).map (fun d => (d._id.getD "", d))
  { base := base, extraStuff := extras }

/-- server.js 148-172, `processPlatforms`.  The match requires
`doc?._id?.startsWith("p") && doc.name && doc.clockState !== undefined`. -/
def processPlatforms (rows : List Row) : List (String × Platform) :=
  rows.foldl (fun acc row =>
    match row.doc with
    | none => acc
    | some d =>
      if idStarts d "p" && truthyS d.name && decide (d.clockState ≠ none) then
        let timer : ℚ :=
          let fallback : ℚ :=
            match d.clockTimerLength with
            | some t => if t = 0 then 60 else t / 1000
            | none => 60
          match d.clockState with
          | some (.obj (some r)) => if r = 0 then fallback else r / 1000
          | _ => fallback
        upsertA acc (d._id.getD "")
          { id := d._id.getD "", name := d.name.getD "",
            timerRemaining := timer, clockTimerLength := d.clockTimerLength,
            barAndCollarsWeight := d.barAndCollarsWeight,
            currentAttemptId := d.currentAttemptId, lights := [] }
      else acc) []

/-- server.js 174-191, `processReferees`. -/
def processReferees (rows : List Row) : List (String × Referee) :=
  rows.foldl (fun acc row =>
    match row.doc with
    | none => acc
    | some d =>
      if idStarts d "r" && truthyS d.platformId && truthyS d.position then
        upsertA acc (d._id.getD "")
          { id := d._id.getD "", platformId := d.platformId.getD "",
            position := d.position.getD "", decision := d.decision,
            cards := d.cards }
      else acc) []

/-- server.js 204-218, `processDivisions`: the whole matching document is
stored. -/
def processDivisions (rows : List Row) : List (String × RawDoc) :=
  rows.foldl (fun acc row =>
    match row.doc with
    | none => acc
    | some d =>
      if idStarts d "d" && truthyS d.name then
        upsertA acc (d._id.getD "") d
      else acc) []

/-! ## LiveStateAggregator (server.js 193-202) -/

/-- The referee comparator `a.position.localeCompare(b.position)`, modelled
as lexicographic order on the position label. -/
def refLe (a b : Referee) : Bool := strLe a.position b.position

/-- A platform's referees, sorted by seating position (server.js 195-197). -/
def sortedRefsFor (referees : List Referee) (pid : String) : List Referee :=
  sortLe refLe (referees.filter (fun r => decide (r.platformId = pid)))

/-- server.js 193-202, `processRefereeLights`: per platform, one boolean per
referee, `true` iff `decision === "good"`. -/
def processRefereeLights (platforms : List (String × Platform))
    (referees : List (String × Referee)) : List (String × Platform) :=
  platforms.map (fun kp =>
    (kp.1, { kp.2 with
      lights := (sortedRefsFor (referees.map Prod.snd) kp.2.id).map
        (fun r => decide (r.decision = some "good")) }))

/-! ## Lifter projection (server.js 220-266) -/

/-- server.js 248-250: the three empty slot objects `{1:0, 2:0, 3:0, best:0}`. -/
def zeroSlots : LiftSlots := { a1 := 0, a2 := 0, a3 := 0, best := 0 }

/-- server.js 220-266, `processLifters`.  `cfg` is the federation's
weight-class table (`federationConfigs[federation] || federationConfigs["IPF"]`
resolved by the caller). -/
def processLifters (rows : List Row) (cfg : FedWeightClasses)
    (divisions : List (String × RawDoc)) : List Lifter :=
  let t := mapWeightClasses cfg
  rows.foldl (fun acc row =>
    match row.doc with
    | none => acc
    | some d =>
      if idStarts d "l" && truthyS d.name && truthyS d.birthDate &&
          truthyS d.gender then
        let divisionInfo : Option DivisionRef :=
          match d.divisions with
          | some (r :: _) => some r
          | _ => none
        let divisionId : Option String :=
          jsOrNullS (divisionInfo.bind DivisionRef.divisionId)
        let divisionName : String :=
          match divisionId with
          | some did =>
            match lookupA divisions did with
            | some ddoc => ddoc.name.getD ""
            | none => ""
          | none => ""
        let sex := d.gender.getD ""
        let bodyweight : ℚ :=
          match d.bodyWeight with
          | some w => if 0 < w then w else 0
          | none => 0
        let l : Lifter :=
          { id := d._id.getD "", name := d.name.getD "", sex := sex,
            weightClass := getWeightClass t (some sex) (some bodyweight),
            bodyweight := bodyweight, division := divisionName,
            divisionId := divisionId, squat := zeroSlots,
            bench := zeroSlots, deadlift := zeroSlots, total := 0,
            place := none, squatRackHeight := jsOrS d.squatRackHeight "",
            benchRackHeight := jsOrS d.benchRackHeight "",
            team := jsOrS d.team "", lot := jsOrNullQ d.lot,
            platformId := jsOrNullS d.platformId,
            session := jsOrNullQ d.session, flight := jsOrS d.flight "" }
        if acc.any (fun x => decide (x.id = l.id)) then
          acc.map (fun x => if x.id = l.id then l else x)
        else acc ++ [l]
      else acc) []

/-! ## AttemptLinker (server.js 268-323) -/

/-- server.js 297-302: lowercase the lift name, mapping the historical alias
`"dead"` to `"deadlift"`. -/
def normLift (s : String) : String :=
  let t := strLower s
  if t = "dead" then "deadlift" else t

/-- server.js 307-316: the signed slot value.  `weight` is already
`parseFloat(doc.weight) || 0`.  Positive for `good` (case-insensitive),
`0` for an absent/pending result, minus the absolute weight otherwise. -/
def slotValue (result : Option String) (weight : ℚ) : ℚ :=
  if result.map strLower = some "good" then weight
  else
    match result with
    | none => 0
    | some _ => -|weight|

/-- Write slot `n` of a discipline (JS `lifter[liftType][attemptNum] = v`). -/
def setSlotN (s : LiftSlots) (n : Int) (v : ℚ) : LiftSlots :=
  if n = 1 then { s with a1 := v }
  else if n = 2 then { s with a2 := v }
  else if n = 3 then { s with a3 := v }
  else s

/-- Dispatch `lifter[liftType]` for the three discipline properties. -/
def setLiftSlot (l : Lifter) (liftType : String) (n : Int) (v : ℚ) : Lifter :=
  if liftType = "squat" then { l with squat := setSlotN l.squat n v }
  else if liftType = "bench" then { l with bench := setSlotN l.bench n v }
  else if liftType = "deadlift" then
    { l with deadlift := setSlotN l.deadlift n v }
  else l

/-- Read back a discipline slot (used only to state properties). -/
def getLiftSlot (l : Lifter) (liftType : String) (n : Int) : ℚ :=
  let s :=
    if liftType = "squat" then l.squat
    else if liftType = "bench" then l.bench
    else l.deadlift
  if n = 1 then s.a1 else if n = 2 then s.a2 else if n = 3 then s.a3 else 0

/-- JS `lifters[doc.lifterId]` (the lifters object is keyed by `_id`). -/
def findLifter (ls : List Lifter) (lid : String) : Option Lifter :=
  ls.find? (fun l => decide (l.id = lid))

/-- Mutate the lifter object with the given id (a JS object holds at most
one entry per id). -/
def updateLifter (ls : List Lifter) (lid : String) (f : Lifter → Lifter) :
    List Lifter :=
  ls.map (fun l => if l.id = lid then f l else l)

/-- server.js 275-281: the attempt-document filter
`doc._id && doc._id.startsWith("a") && doc.lifterId && doc.liftName &&
doc.attemptNumber` (the first conjunct is JS truthiness of `_id` itself;
`attemptNumber` must be a truthy number). -/
def attemptRowMatch (d : RawDoc) : Bool :=
  truthyS d._id && idStarts d "a" && truthyS d.lifterId &&
    truthyS d.liftName &&
    (match d.attemptNumber with
     | some n => decide (n ≠ 0)
     | none => false)

/-- One matched attempt document's effect on the lifters (server.js
293-318): look up the owner, normalize the lift name, and when the
discipline property exists and the attempt number is in `1..3`, write the
signed slot value. -/
def linkAttempt (d : RawDoc) (lifters : List Lifter) : List Lifter :=
  let lid := d.lifterId.getD ""
  match findLifter lifters lid with
  | none => lifters
  | some _ =>
    let liftType := normLift (d.liftName.getD "")
    let n := d.attemptNumber.getD 0
    if (liftType = "squat" ∨ liftType = "bench" ∨ liftType = "deadlift") ∧
        1 ≤ n ∧ n ≤ 3 then
      updateLifter lifters lid
        (fun l => setLiftSlot l liftType n (slotValue d.result (d.weight.getD 0)))
    else lifters

/-- server.js 268-323, `processAttempts`, row by row.  Unlike every other
projector, line 276 reads `doc._id` without optional chaining, so a row
whose `doc` is absent/null throws a `TypeError`; that exception is the
`Except.error` case. -/
def processAttemptsGo (rows : List Row) (acc : List (String × Attempt))
    (lifters : List Lifter) :
    Except Unit (List (String × Attempt) × List Lifter) :=
  match rows with
  | [] => .ok (acc, lifters)
  | r :: rs =>
    match r.doc with
    | none => .error ()
    | some d =>
      if attemptRowMatch d then
        let i := d._id.getD ""
        let att : Attempt :=
          { id := i, lifterId := d.lifterId.getD "",
            liftName := d.liftName.getD "",
            attemptNumber := d.attemptNumber.getD 0, weight := d.weight,
            result := d.result, decisions := d.decisions,
            createDate := d.createDate }
        processAttemptsGo rs (upsertA acc i att) (linkAttempt d lifters)
      else processAttemptsGo rs acc lifters

/-- server.js 268-323, `processAttempts`. -/
def processAttempts (rows : List Row) (lifters : List Lifter) :
    Except Unit (List (String × Attempt) × List Lifter) :=
  processAttemptsGo rows [] lifters

/-! ## ScoringEngine (server.js 325-376) -/

/-- server.js 328-335: keep the strictly positive slots and take their max
(`Math.max(...attempts)`), `0` if none. -/
def bestOf (a b c : ℚ) : ℚ :=
  match [a, b, c].filter (fun w => decide (0 < w)) with
  | [] => 0
  | x :: xs => xs.foldl max x

/-- The per-lifter body of `calculateBestLifts` (server.js 326-343):
recompute the three `best` fields and `total`. -/
def bestFn (l : Lifter) : Lifter :=
  let sq := { l.squat with best := bestOf l.squat.a1 l.squat.a2 l.squat.a3 }
  let bp := { l.bench with best := bestOf l.bench.a1 l.bench.a2 l.bench.a3 }
  let dl := { l.deadlift with
    best := bestOf l.deadlift.a1 l.deadlift.a2 l.deadlift.a3 }
  { l with
    squat := sq, bench := bp, deadlift := dl,
    total := sq.best + bp.best + dl.best }

/-- server.js 325-344, `calculateBestLifts`, over `Object.values(lifters)`. -/
def calculateBestLifts (ls : List Lifter) : List Lifter := ls.map bestFn

/-- The grouping key `${lifter.divisionId}_${lifter.sex}_${lifter.weightClass}`
(server.js 353), modelled as the tuple of the three components. -/
def groupKey (l : Lifter) : Option String × String × WCLabel :=
  (l.divisionId, l.sex, l.weightClass)

/-- The placing comparator (server.js 362-368): total descending, ties by
bodyweight ascending.  `lifterLe a b` means the comparator puts `a` at or
before `b`. -/
def lifterLe (a b : Lifter) : Bool :=
  if a.total = b.total then decide (a.bodyweight ≤ b.bodyweight)
  else decide (b.total < a.total)

/-- A lifter's group (same key), in snapshot order, sorted by the placing
comparator (server.js 350-368). -/
def sortedGroupFor (ls : List Lifter) (x : Lifter) : List Lifter :=
  sortLe lifterLe (ls.filter (fun y => decide (groupKey y = groupKey x)))

/-- 1-based index of the lifter with the given id in its sorted group
(the `index + 1` of the JS `forEach`). -/
def placeInGroup (lid : String) : List Lifter → Option Nat
  | [] => none
  | y :: ys => if y.id = lid then some 1 else (placeInGroup lid ys).map (· + 1)

/-- server.js 370-374: the place written into a lifter — its 1-based sorted
position within its group when its total is positive, `null` otherwise. -/
def placeFor (ls : List Lifter) (x : Lifter) : Option Nat :=
  if 0 < x.total then placeInGroup x.id (sortedGroupFor ls x) else none

/-- One lifter's update in `calculatePlacings`. -/
def placeSet (ls : List Lifter) (x : Lifter) : Lifter :=
  { x with place := placeFor ls x }

/-- server.js 346-376, `calculatePlacings`, over `Object.values(lifters)`. -/
def calculatePlacings (ls : List Lifter) : List Lifter :=
  ls.map (placeSet ls)

/-- One scoring pass: `calculateBestLifts` followed by `calculatePlacings`
(server.js 404-405). -/
def scorePass (ls : List Lifter) : List Lifter :=
  calculatePlacings (calculateBestLifts ls)

/-! ## SnapshotStore / update cycle (server.js 21-31, 35-85, 378-418) -/

/-- The mutable `meetData` global (server.js 21-31). -/
structure MeetState where
  lifters : List Lifter
  attempts : List (String × Attempt)
  divisions : List (String × RawDoc)
  platforms : List (String × Platform)
  referees : List (String × Referee)
  meetInfo : Option MeetInfo
  federation : Option String
  meetId : Option String
  lastUpdate : Option String
deriving DecidableEq

/-- The parsed body of an `_all_docs` response; `rows` is absent for a
malformed payload. -/
structure FetchPayload where
  rows : Option (List Row)
deriving DecidableEq

/-- server.js 35-85, `fetchData`: `none` input models a network error
(caught, returns `null`); a response with `ok = false` throws on
`!response.ok` and is caught, returning `null`; otherwise the parsed body
is returned. -/
def fetchData (response : Option (Bool × FetchPayload)) : Option FetchPayload :=
  match response with
  | none => none
  | some (ok, body) => if ok then some body else none

/-- server.js 378-418, `updateMeetData`: no-op without a configured meet id
or when fetch/parse fails; otherwise run the projection and scoring
pipeline and stamp `lastUpdate` with the current time `now`.  When
`processAttempts` throws (absent `doc` in a row), the fields assigned
before the throw (divisions, meetInfo, platforms, referees, lifters) keep
their new values and the rest of the cycle is abandoned. -/
def updateMeetData (cfg : FedWeightClasses) (st : MeetState)
    (response : Option (Bool × FetchPayload)) (now : String) : MeetState :=
  match st.meetId with
  | none => st
  | some _ =>
    match fetchData response with
    | none => st
    | some data =>
      match data.rows with
      | none => st
      | some rows =>
        let divisions := processDivisions rows
        let meetInfo := processMeetInfo rows
        let platforms := processPlatforms rows
        let referees := processReferees rows
        let lifters := processLifters rows cfg divisions
        match processAttempts rows lifters with
        | .error _ =>
          { st with
            divisions := divisions, meetInfo := some meetInfo,
            platforms := platforms, referees := referees, lifters := lifters }
        | .ok (attempts, lifters2) =>
          let lifters3 := calculatePlacings (calculateBestLifts lifters2)
          let platforms2 := processRefereeLights platforms referees
          { st with
            divisions := divisions, meetInfo := some meetInfo,
            platforms := platforms2, referees := referees,
            lifters := lifters3, attempts := attempts,
            lastUpdate := some now }

/-! ## BroadcastHub message payloads (server.js 423-445, 505-526) -/

/-- The `data` object of an outbound WebSocket message.  Each field is
`none` when the corresponding key is absent from the JSON object. -/
structure WireData where
  lifters : Option (List Lifter)
  attempts : Option (List (String × Attempt))
  divisions : Option (List (String × RawDoc))
  platforms : Option (List (String × Platform))
  referees : Option (List (String × Referee))
  meetInfo : Option (Option MeetInfo)
  federation : Option (Option String)
  lastUpdate : Option (Option String)
  federations : Option (List String)
deriving DecidableEq

/-- server.js 423-436: the `"update"` message's `data` — the full snapshot. -/
def broadcastData (st : MeetState) : WireData :=
  { lifters := some st.lifters, attempts := some st.attempts,
    divisions := some st.divisions, platforms := some st.platforms,
    referees := some st.referees, meetInfo := some st.meetInfo,
    federation := some st.federation, lastUpdate := some st.lastUpdate,
    federations := none }

/-- server.js 512-521: the `"initial"` message's `data` sent to a newly
joined viewer — only lifters, last update, federation, plus the list of
configured federation codes. -/
def initialData (st : MeetState) (federationList : List String) : WireData :=
  { lifters := some st.lifters, attempts := none, divisions := none,
    platforms := none, referees := none, meetInfo := none,
    federation := some st.federation, lastUpdate := some st.lastUpdate,
    federations := some federationList }

/-! ## Example values used by witnesses and counterexamples -/

/-- A projected lifter with empty slots, as `processLifters` creates one. -/
def baseLifter : Lifter :=
  { id := "l1", name := "Ann", sex := "MALE", weightClass := .cls 83,
    bodyweight := 80, division := "Open", divisionId := some "d1",
    squat := zeroSlots, bench := zeroSlots, deadlift := zeroSlots,
    total := 0, place := none, squatRackHeight := "", benchRackHeight := "",
    team := "", lot := none, platformId := none, session := none,
    flight := "" }

/-- The spec's worked example: squat `[100, -105, 105]`, bench pending,
deadlift `[150, 0, 0]`. -/
def exLifterC2 : Lifter :=
  { baseLifter with
    squat := { a1 := 100, a2 := -105, a3 := 105, best := 0 },
    deadlift := { a1 := 150, a2 := 0, a3 := 0, best := 0 } }

/-! ## C9 -/

/-- C9 (code bug): claim "each projection step skips only the non-matching
document for that entity kind and the processing cycle runs to completion
without raising an error (projection is total over arbitrary row lists)".
`processLifters` (and every other projector) guards with optional chaining
and skips a row with an absent document, but `processAttempts` reads
`doc._id` without optional chaining (server.js 276), so the same row makes
it throw a `TypeError` and abort the cycle. -/
theorem C9_attempts_fault_on_docless_row :
    processAttempts [{ doc := none }] [] = Except.error () ∧
    processLifters [{ doc := none }] { male := [], female := [] } [] = [] :=
  ⟨rfl, rfl⟩

/-! ## C8 -/

/-- C8: if the fetch or parse of an update cycle fails (network error,
non-success HTTP status, or payload without rows), the entire previous
snapshot — every field of `meetData` — is left unchanged. -/
theorem C8_failed_cycle_keeps_snapshot (cfg : FedWeightClasses)
    (st : MeetState) (response : Option (Bool × FetchPayload)) (now : String)
    (hfail : response = none ∨ (∃ b, response = some (false, b)) ∨
      (∃ p, response = some (true, p) ∧ p.rows = none)) :
    updateMeetData cfg st response now = st := by
  rcases hfail with rfl | ⟨b, rfl⟩ | ⟨p, rfl, hp⟩ <;>
    cases hm : st.meetId <;>
    simp [updateMeetData, fetchData, hm]
  cases hr : p.rows
  · rfl
  · rw [hp] at hr; cases hr

/-- C8 witness: a concrete configured state and a 500-style response. -/
theorem C8_witness :
    updateMeetData { male := [], female := [] }
      { lifters := [baseLifter], attempts := [], divisions := [],
        platforms := [], referees := [], meetInfo := none,
        federation := some "IPF", meetId := some "m1", lastUpdate := none }
      (some (false, { rows := some [] })) "2025-10-05T12:00:00Z" =
      { lifters := [baseLifter], attempts := [], divisions := [],
        platforms := [], referees := [], meetInfo := none,
        federation := some "IPF", meetId := some "m1", lastUpdate := none } :=
  C8_failed_cycle_keeps_snapshot _ _ _ _
    (Or.inr (Or.inl ⟨{ rows := some [] }, rfl⟩))

/-! ## C3 -/

/-- A concrete snapshot with a non-empty attempts map, distinguishing the
two outbound message payloads. -/
def exStateC3 : MeetState :=
  { lifters := [baseLifter],
    attempts := [("a1-l1",
      { id := "a1-l1", lifterId := "l1", liftName := "squat",
        attemptNumber := 1, weight := some 100, result := some "good",
        decisions := none, createDate := none })],
    divisions := [], platforms := [], referees := [], meetInfo := none,
    federation := some "IPF", meetId := some "m1",
    lastUpdate := some "2025-10-05T12:00:00Z" }

/-- C3 counterexample: the claim says the "initial" payload equals the
"update" payload for any snapshot state; at `exStateC3` the initial payload
omits the attempts (and divisions, platforms, referees, meet info) that the
update payload carries. -/
theorem C3_counterexample :
    initialData exStateC3 ["IPF"] ≠ broadcastData exStateC3 := by
  intro h
  exact absurd (congrArg WireData.attempts h) (by decide)

/-- C3 amended: the "initial" message carries only the lifters, the
federation code and the last-update timestamp (plus the list of known
federation codes); it omits attempts, divisions, platforms, referees and
meet info, which only the "update" broadcast carries.  For the fields both
messages share, a joining viewer receives exactly the values of the same
snapshot state an update broadcast would carry. -/
theorem C3_amended (st : MeetState) (federationList : List String) :
    (initialData st federationList).lifters = (broadcastData st).lifters ∧
    (initialData st federationList).federation =
      (broadcastData st).federation ∧
    (initialData st federationList).lastUpdate =
      (broadcastData st).lastUpdate ∧
    (initialData st federationList).attempts = none ∧
    (initialData st federationList).divisions = none ∧
    (initialData st federationList).platforms = none ∧
    (initialData st federationList).referees = none ∧
    (initialData st federationList).meetInfo = none ∧
    (initialData st federationList).federations = some federationList ∧
    (broadcastData st).federations = none :=
  ⟨rfl, rfl, rfl, rfl, rfl, rfl, rfl, rfl, rfl, rfl⟩

/-! ## Best-lift characterization -/

/-- `best` is the maximum of the strictly positive slot values, `0` when no
slot is positive (the claim's reading of server.js 328-335). -/
def IsMaxPosSlot (a b c best : ℚ) : Prop :=
  ((0 < a ∨ 0 < b ∨ 0 < c) →
    ((best = a ∨ best = b ∨ best = c) ∧
     (0 < a → a ≤ best) ∧ (0 < b → b ≤ best) ∧ (0 < c → c ≤ best) ∧
     0 < best)) ∧
  (¬(0 < a ∨ 0 < b ∨ 0 < c) → best = 0)

theorem bestOf_isMaxPos (a b c : ℚ) : IsMaxPosSlot a b c (bestOf a b c) := by
  by_cases ha : 0 < a <;> by_cases hb : 0 < b <;> by_cases hc : 0 < c <;>
    simp [IsMaxPosSlot, bestOf, List.filter, ha, hb, hc]
  · rcases le_total a c with hac | hac
    · rcases le_total b c with hbc | hbc
      · exact Or.inr (Or.inr ⟨hac, hbc⟩)
      · refine Or.inr (Or.inl ?_)
        rw [sup_eq_right.mpr (hac.trans hbc), sup_eq_left.mpr hbc]
    · rcases le_total b a with h2 | h2
      · exact Or.inl (by rw [sup_eq_left.mpr h2, sup_eq_left.mpr hac])
      · refine Or.inr (Or.inl ?_)
        rw [sup_eq_right.mpr h2, sup_eq_left.mpr (hac.trans h2)]
  · rcases le_total a b with h | h
    · exact Or.inr (Or.inl h)
    · exact Or.inl h
  · rcases le_total a c with h | h
    · exact Or.inr (Or.inr h)
    · exact Or.inl h
  · rcases le_total b c with h | h
    · exact Or.inr (Or.inr h)
    · exact Or.inr (Or.inl h)

/-! ## Placing infrastructure -/

theorem lifterLe_total (a b : Lifter) :
    lifterLe a b = true ∨ lifterLe b a = true := by
  unfold lifterLe
  by_cases h : a.total = b.total
  · rw [if_pos h, if_pos h.symm]
    rcases le_total a.bodyweight b.bodyweight with h2 | h2
    · exact Or.inl (decide_eq_true h2)
    · exact Or.inr (decide_eq_true h2)
  · rw [if_neg h, if_neg (Ne.symm h)]
    rcases lt_or_gt_of_ne h with h2 | h2
    · exact Or.inr (decide_eq_true h2)
    · exact Or.inl (decide_eq_true h2)

theorem lifterLe_trans (a b c : Lifter) (h1 : lifterLe a b = true)
    (h2 : lifterLe b c = true) : lifterLe a c = true := by
  unfold lifterLe at h1 h2 ⊢
  by_cases hab : a.total = b.total <;> by_cases hbc : b.total = c.total
  · rw [if_pos hab] at h1
    rw [if_pos hbc] at h2
    rw [if_pos (hab.trans hbc)]
    exact decide_eq_true
      (le_trans (of_decide_eq_true h1) (of_decide_eq_true h2))
  · rw [if_neg hbc] at h2
    rw [if_neg (by rw [hab]; exact hbc)]
    exact decide_eq_true (by rw [hab]; exact of_decide_eq_true h2)
  · rw [if_neg hab] at h1
    rw [if_neg (by rw [← hbc]; exact hab)]
    exact decide_eq_true (by rw [← hbc]; exact of_decide_eq_true h1)
  · rw [if_neg hab] at h1
    rw [if_neg hbc] at h2
    have hba := of_decide_eq_true h1
    have hcb := of_decide_eq_true h2
    rw [if_neg (fun h => absurd (h ▸ lt_trans hcb hba) (lt_irrefl _))]
    exact decide_eq_true (lt_trans hcb hba)

theorem sortedGroupFor_pairwise (ls : List Lifter) (x : Lifter) :
    (sortedGroupFor ls x).Pairwise fun u v => lifterLe u v = true :=
  sortLe_pairwise lifterLe lifterLe_total lifterLe_trans _

theorem mem_sortedGroupFor {ls : List Lifter} {x y : Lifter} (hy : y ∈ ls)
    (hk : groupKey y = groupKey x) : y ∈ sortedGroupFor ls x :=
  (sortLe_perm _ _).mem_iff.mpr (List.mem_filter.mpr ⟨hy, decide_eq_true hk⟩)

theorem sortedGroupFor_nodup {ls : List Lifter}
    (hnd : (ls.map Lifter.id).Nodup) (x : Lifter) :
    ((sortedGroupFor ls x).map Lifter.id).Nodup := by
  refine ((sortLe_perm lifterLe _).map Lifter.id).nodup_iff.mpr ?_
  exact hnd.sublist ((List.filter_sublist ls).map Lifter.id)

theorem placeInGroup_mem {s : List Lifter} {x : Lifter} (hx : x ∈ s) :
    ∃ k, placeInGroup x.id s = some k := by
  induction s with
  | nil => cases hx
  | cons z zs ih =>
    by_cases hz : z.id = x.id
    · exact ⟨1, by simp [placeInGroup, hz]⟩
    · rcases List.mem_cons.mp hx with rfl | hx'
      · exact absurd rfl hz
      · rcases ih hx' with ⟨k, hk⟩
        exact ⟨k + 1, by simp [placeInGroup, hz, hk]⟩

theorem placeInGroup_pos {lid : String} {s : List Lifter} {k : Nat}
    (h : placeInGroup lid s = some k) : 1 ≤ k := by
  induction s generalizing k with
  | nil => cases h
  | cons z zs ih =>
    by_cases hz : z.id = lid
    · simp [placeInGroup, hz] at h
      omega
    · simp [placeInGroup, hz] at h
      rcases h with ⟨k', hk', rfl⟩
      have := ih hk'
      omega

theorem placeInGroup_map {lid : String} (f : Lifter → Lifter)
    (hid : ∀ l, (f l).id = l.id) (s : List Lifter) :
    placeInGroup lid (s.map f) = placeInGroup lid s := by
  induction s with
  | nil => rfl
  | cons z zs ih => simp [placeInGroup, hid, ih]

theorem placeInGroup_lt {s : List Lifter}
    (hpw : s.Pairwise fun u v => lifterLe u v = true)
    (hnd : (s.map Lifter.id).Nodup)
    {x y : Lifter} (hx : x ∈ s) (hy : y ∈ s) {px py : Nat}
    (hpx : placeInGroup x.id s = some px)
    (hpy : placeInGroup y.id s = some py)
    (hord : y.total < x.total ∨
      (x.total = y.total ∧ x.bodyweight < y.bodyweight)) :
    px < py := by
  induction s generalizing px py with
  | nil => cases hx
  | cons z zs ih =>
    rcases List.pairwise_cons.mp hpw with ⟨hz1, hpw'⟩
    rw [List.map_cons] at hnd
    have hnd0 := hnd
    rw [← List.map_cons] at hnd0
    have hnd' : (zs.map Lifter.id).Nodup := hnd.of_cons
    by_cases hzx : z.id = x.id <;> by_cases hzy : z.id = y.id
    · have hxy : x = y :=
        List.inj_on_of_nodup_map hnd0 hx hy (by rw [← hzx, hzy])
      subst hxy
      rcases hord with h | ⟨_, h⟩ <;> exact absurd h (lt_irrefl _)
    · simp [placeInGroup, hzx] at hpx
      simp [placeInGroup, hzy] at hpy
      rcases hpy with ⟨k, hk, rfl⟩
      have := placeInGroup_pos hk
      omega
    · have hzy' : z = y :=
        List.inj_on_of_nodup_map hnd0 (List.mem_cons_self z zs) hy hzy
      have hxzs : x ∈ zs := by
        rcases List.mem_cons.mp hx with rfl | h
        · exact absurd rfl hzx
        · exact h
      have hle := hz1 x hxzs
      rw [hzy'] at hle
      unfold lifterLe at hle
      rcases hord with h | ⟨heq, hbw⟩
      · by_cases ht : y.total = x.total
        · exact absurd ht (ne_of_lt h)
        · rw [if_neg ht] at hle
          exact absurd (lt_trans h (of_decide_eq_true hle)) (lt_irrefl _)
      · by_cases ht : y.total = x.total
        · rw [if_pos ht] at hle
          exact absurd (lt_of_lt_of_le hbw (of_decide_eq_true hle))
            (lt_irrefl _)
        · exact absurd heq.symm ht
    · have hxzs : x ∈ zs := by
        rcases List.mem_cons.mp hx with rfl | h
        · exact absurd rfl hzx
        · exact h
      have hyzs : y ∈ zs := by
        rcases List.mem_cons.mp hy with rfl | h
        · exact absurd rfl hzy
        · exact h
      simp [placeInGroup, hzx] at hpx
      simp [placeInGroup, hzy] at hpy
      rcases hpx with ⟨k1, hk1, rfl⟩
      rcases hpy with ⟨k2, hk2, rfl⟩
      have := ih hpw' hnd' hxzs hyzs hk1 hk2
      omega

theorem mem_scorePass {ls : List Lifter} {z : Lifter} (hz : z ∈ scorePass ls) :
    ∃ x ∈ calculateBestLifts ls, z = placeSet (calculateBestLifts ls) x := by
  rcases List.mem_map.mp hz with ⟨x, hx, rfl⟩
  exact ⟨x, hx, rfl⟩

/-! ## C1 -/

/-- C1: after a scoring pass (`calculateBestLifts` then `calculatePlacings`),
every lifter's per-discipline `best` is the maximum strictly-positive slot
value (`0` if none), `total` is the sum of the three bests, and `place` is
non-null exactly when `total > 0`. -/
theorem C1_scoring_invariants (ls : List Lifter) (z : Lifter)
    (hz : z ∈ scorePass ls) :
    IsMaxPosSlot z.squat.a1 z.squat.a2 z.squat.a3 z.squat.best ∧
    IsMaxPosSlot z.bench.a1 z.bench.a2 z.bench.a3 z.bench.best ∧
    IsMaxPosSlot z.deadlift.a1 z.deadlift.a2 z.deadlift.a3 z.deadlift.best ∧
    z.total = z.squat.best + z.bench.best + z.deadlift.best ∧
    (z.place ≠ none ↔ 0 < z.total) := by
  rcases mem_scorePass hz with ⟨x, hx, rfl⟩
  rcases List.mem_map.mp hx with ⟨x0, hx0, rfl⟩
  refine ⟨bestOf_isMaxPos _ _ _, bestOf_isMaxPos _ _ _,
    bestOf_isMaxPos _ _ _, rfl, ?_⟩
  show placeFor _ (bestFn x0) ≠ none ↔ 0 < (bestFn x0).total
  unfold placeFor
  by_cases h : 0 < (bestFn x0).total
  · rw [if_pos h]
    refine ⟨fun _ => h, fun _ => ?_⟩
    rcases placeInGroup_mem (mem_sortedGroupFor hx rfl) with ⟨k, hk⟩
    rw [hk]
    exact Option.some_ne_none k
  · rw [if_neg h]
    simp [h]

/-- C1 witness: the place/total equivalence at the spec's worked example. -/
theorem C1_witness :
    (placeSet (calculateBestLifts [exLifterC2]) (bestFn exLifterC2)).place ≠
      none ↔
    0 < (placeSet (calculateBestLifts [exLifterC2]) (bestFn exLifterC2)).total :=
  (C1_scoring_invariants [exLifterC2]
    (placeSet (calculateBestLifts [exLifterC2]) (bestFn exLifterC2))
    (by simp [scorePass, calculatePlacings, calculateBestLifts])).2.2.2.2

/-! ## C2 -/

/-- C2 counterexample: the claim says a discipline with `best = 0` forces
`total = 0`; at the spec's own worked example (bench entirely pending) the
code computes `bench.best = 0` yet `total = 255 ≠ 0`. -/
theorem C2_counterexample :
    ∃ z, calculateBestLifts [exLifterC2] = [z] ∧ z.bench.best = 0 ∧
      z.total ≠ 0 := by
  refine ⟨bestFn exLifterC2, rfl, by decide, ?_⟩
  norm_num [bestFn, bestOf, exLifterC2, baseLifter, zeroSlots, List.filter]

/-- C2 amended: after best-lift derivation `total` is always the plain sum
of the three `best` values; a discipline with no successful lift
contributes `0` to the sum but does not zero the whole total. -/
theorem C2_amended (ls : List Lifter) (z : Lifter)
    (hz : z ∈ calculateBestLifts ls) :
    z.total = z.squat.best + z.bench.best + z.deadlift.best ∧
    (z.squat.best = 0 → z.total = z.bench.best + z.deadlift.best) ∧
    (z.bench.best = 0 → z.total = z.squat.best + z.deadlift.best) ∧
    (z.deadlift.best = 0 → z.total = z.squat.best + z.bench.best) := by
  rcases List.mem_map.mp hz with ⟨x, hx, rfl⟩
  refine ⟨rfl, fun h => ?_, fun h => ?_, fun h => ?_⟩ <;>
  · have htot : (bestFn x).total =
        (bestFn x).squat.best + (bestFn x).bench.best +
        (bestFn x).deadlift.best := rfl
    rw [htot, h]
    ring

/-- C2 witness: at the worked example the lifter's total is the sum of the
squat and deadlift bests because the bench best is zero. -/
theorem C2_witness :
    (bestFn exLifterC2).total =
      (bestFn exLifterC2).squat.best + (bestFn exLifterC2).deadlift.best :=
  (C2_amended [exLifterC2] (bestFn exLifterC2)
    (by simp [calculateBestLifts])).2.2.1 (by decide)

/-! ## C6 -/

@[simp] theorem placeSet_total (L : List Lifter) (x : Lifter) :
    (placeSet L x).total = x.total := rfl

@[simp] theorem placeSet_bodyweight (L : List Lifter) (x : Lifter) :
    (placeSet L x).bodyweight = x.bodyweight := rfl

@[simp] theorem placeSet_id (L : List Lifter) (x : Lifter) :
    (placeSet L x).id = x.id := rfl

@[simp] theorem groupKey_placeSet (L : List Lifter) (x : Lifter) :
    groupKey (placeSet L x) = groupKey x := rfl

theorem lifterLe_placeSet (L : List Lifter) (a b : Lifter) :
    lifterLe (placeSet L a) (placeSet L b) = lifterLe a b := rfl

theorem bestFn_bestFn (x : Lifter) : bestFn (bestFn x) = bestFn x := rfl

theorem calculateBestLifts_scorePass (ls : List Lifter) :
    calculateBestLifts (scorePass ls) = scorePass ls := by
  show (scorePass ls).map bestFn = scorePass ls
  unfold scorePass calculatePlacings
  rw [List.map_map]
  apply List.map_congr_left
  intro x hx
  rcases List.mem_map.mp hx with ⟨x0, hx0, rfl⟩
  rfl

theorem placeFor_map_placeSet (L : List Lifter) (x : Lifter) :
    placeFor (L.map (placeSet L)) (placeSet L x) = placeFor L x := by
  unfold placeFor
  by_cases h : 0 < x.total
  · rw [if_pos (show 0 < (placeSet L x).total from h), if_pos h]
    have hgrp : sortedGroupFor (L.map (placeSet L)) (placeSet L x) =
        (sortedGroupFor L x).map (placeSet L) := by
      unfold sortedGroupFor
      rw [List.filter_map]
      have hpred : ((fun y => decide (groupKey y = groupKey (placeSet L x)))
          ∘ placeSet L) = fun y => decide (groupKey y = groupKey x) := by
        funext y
        rfl
      rw [hpred]
      exact sortLe_map lifterLe lifterLe (placeSet L) (lifterLe_placeSet L) _
    rw [hgrp]
    show placeInGroup x.id _ = _
    rw [placeInGroup_map (placeSet L) (fun l => rfl)]
  · rw [if_neg (show ¬0 < (placeSet L x).total from h), if_neg h]

theorem placeSet_self (M : List Lifter) (y : Lifter)
    (h : placeFor M y = y.place) : placeSet M y = y := by
  unfold placeSet
  rw [h]

theorem calculatePlacings_scorePass (ls : List Lifter) :
    calculatePlacings (scorePass ls) = scorePass ls := by
  show (scorePass ls).map (placeSet (scorePass ls)) = scorePass ls
  conv_lhs =>
    rw [show scorePass ls =
      (calculateBestLifts ls).map (placeSet (calculateBestLifts ls)) from rfl]
  rw [List.map_map]
  apply List.map_congr_left
  intro x hx
  exact placeSet_self _ _ (placeFor_map_placeSet (calculateBestLifts ls) x)

/-- C6: within every `(divisionId, sex, weightClass)` group, places strictly
increase as `total` decreases, with ascending bodyweight breaking ties in
`total`; and re-running the two scoring passes on their own output changes
nothing (idempotence).  The id-uniqueness hypothesis reflects that JS
lifters live in an object keyed by `_id`. -/
theorem C6_group_order_and_idempotence (ls : List Lifter)
    (hnd : (ls.map Lifter.id).Nodup) :
    (∀ x ∈ scorePass ls, ∀ y ∈ scorePass ls,
      x.divisionId = y.divisionId → x.sex = y.sex →
      x.weightClass = y.weightClass →
      ∀ px py : Nat, x.place = some px → y.place = some py →
      (y.total < x.total ∨
        (x.total = y.total ∧ x.bodyweight < y.bodyweight)) →
      px < py) ∧
    scorePass (scorePass ls) = scorePass ls := by
  constructor
  · intro x hx y hy hdiv hsex hwc px py hpx hpy hord
    rcases mem_scorePass hx with ⟨a, ha, rfl⟩
    rcases mem_scorePass hy with ⟨b, hb, rfl⟩
    have hkey : groupKey a = groupKey b := by
      unfold groupKey
      rw [show a.divisionId = b.divisionId from hdiv,
        show a.sex = b.sex from hsex,
        show a.weightClass = b.weightClass from hwc]
    have hndL : ((calculateBestLifts ls).map Lifter.id).Nodup := by
      unfold calculateBestLifts
      rw [List.map_map,
        List.map_congr_left (fun (a : Lifter) _ =>
          (rfl : (Lifter.id ∘ bestFn) a = a.id))]
      exact hnd
    have hpa : placeFor (calculateBestLifts ls) a = some px := hpx
    have hpb : placeFor (calculateBestLifts ls) b = some py := hpy
    unfold placeFor at hpa hpb
    by_cases h0a : 0 < a.total
    · by_cases h0b : 0 < b.total
      · rw [if_pos h0a] at hpa
        rw [if_pos h0b] at hpb
        have hbs : sortedGroupFor (calculateBestLifts ls) b =
            sortedGroupFor (calculateBestLifts ls) a := by
          unfold sortedGroupFor
          rw [← hkey]
        rw [hbs] at hpb
        exact placeInGroup_lt (sortedGroupFor_pairwise _ a)
          (sortedGroupFor_nodup hndL a)
          (mem_sortedGroupFor ha rfl)
          (mem_sortedGroupFor hb hkey.symm) hpa hpb hord
      · rw [if_neg h0b] at hpb
        cases hpb
    · rw [if_neg h0a] at hpa
      cases hpa
  · calc scorePass (scorePass ls)
        = calculatePlacings (calculateBestLifts (scorePass ls)) := rfl
      _ = calculatePlacings (scorePass ls) := by
          rw [calculateBestLifts_scorePass]
      _ = scorePass ls := calculatePlacings_scorePass ls

/-- Two lifters in the same group with distinct totals. -/
def exLifterC6A : Lifter :=
  { baseLifter with
    id := "l1",
    squat := { a1 := 100, a2 := 0, a3 := 0, best := 0 } }

def exLifterC6B : Lifter :=
  { baseLifter with
    id := "l2", bodyweight := 79,
    squat := { a1 := 90, a2 := 0, a3 := 0, best := 0 } }

/-- C6 witness: idempotence of scoring at a concrete two-lifter group. -/
theorem C6_witness :
    scorePass (scorePass [exLifterC6A, exLifterC6B]) =
      scorePass [exLifterC6A, exLifterC6B] :=
  (C6_group_order_and_idempotence [exLifterC6A, exLifterC6B] (by decide)).2

/-! ## C5 / C10: attempt slot encoding -/

theorem getLiftSlot_setLiftSlot (l : Lifter) (t : String) (n : Int) (v : ℚ)
    (ht : t = "squat" ∨ t = "bench" ∨ t = "deadlift")
    (h1 : 1 ≤ n) (h3 : n ≤ 3) :
    getLiftSlot (setLiftSlot l t n v) t n = v := by
  have hn' : n = 1 ∨ n = 2 ∨ n = 3 := by omega
  rcases ht with rfl | rfl | rfl <;> rcases hn' with rfl | rfl | rfl <;>
    simp [getLiftSlot, setLiftSlot, setSlotN]

/-- Evaluation of `processAttempts` on one linked attempt row: the owning
lifter's slot is overwritten with the signed value `slotValue`. -/
theorem processAttempts_single
    (d : RawDoc) (l : Lifter) (i lid nm : String) (n : Int)
    (hid : d._id = some i) (hi0 : i ≠ "") (hia : strStarts i "a" = true)
    (hlid : d.lifterId = some lid) (hlid0 : lid ≠ "")
    (hnm : d.liftName = some nm) (hnm0 : nm ≠ "")
    (hn : d.attemptNumber = some n) (h1 : 1 ≤ n) (h3 : n ≤ 3)
    (hl : l.id = lid)
    (hdisc : normLift nm = "squat" ∨ normLift nm = "bench" ∨
      normLift nm = "deadlift") :
    ∃ A, processAttempts [{ doc := some d }] [l] =
      .ok (A, [setLiftSlot l (normLift nm) n
        (slotValue d.result (d.weight.getD 0))]) := by
  have hn0 : n ≠ 0 := by omega
  have hmatch : attemptRowMatch d = true := by
    unfold attemptRowMatch idStarts
    rw [hid, hlid, hnm, hn]
    simp [truthyS, hi0, hlid0, hnm0, hn0, hia]
  have hlink : linkAttempt d [l] =
      [setLiftSlot l (normLift nm) n (slotValue d.result (d.weight.getD 0))] := by
    unfold linkAttempt findLifter updateLifter
    rw [hlid, hnm, hn]
    simp only [Option.getD_some]
    rw [List.find?_cons_of_pos _ (by simp [hl])]
    rw [if_pos ⟨hdisc, h1, h3⟩]
    simp [hl]
  refine ⟨upsertA [] i
    { id := i, lifterId := lid, liftName := nm, attemptNumber := n,
      weight := d.weight, result := d.result, decisions := d.decisions,
      createDate := d.createDate }, ?_⟩
  show processAttemptsGo [{ doc := some d }] [] [l] = _
  rw [show processAttemptsGo [{ doc := some d }] [] [l] =
      (if attemptRowMatch d then
        processAttemptsGo [] (upsertA [] (d._id.getD "")
          { id := d._id.getD "", lifterId := d.lifterId.getD "",
            liftName := d.liftName.getD "",
            attemptNumber := d.attemptNumber.getD 0, weight := d.weight,
            result := d.result, decisions := d.decisions,
            createDate := d.createDate }) (linkAttempt d [l])
      else processAttemptsGo [] [] [l]) from rfl]
  rw [if_pos hmatch, hlink]
  rw [hid, hlid, hnm, hn]
  rfl

theorem slotValue_good (r : Option String) (w : ℚ)
    (h : r.map strLower = some "good") : slotValue r w = w := by
  unfold slotValue
  rw [if_pos h]

theorem slotValue_pending (w : ℚ) : slotValue none w = 0 := rfl

theorem slotValue_failed (rs : String) (w : ℚ) (h : strLower rs ≠ "good") :
    slotValue (some rs) w = -|w| := by
  unfold slotValue
  rw [if_neg (by simpa using h)]

/-- C5: for a linked attempt with attempt number in `1..3`, the value
written into the owning lifter's discipline slot is the declared weight
when the outcome is `good` (case-insensitively), `0` when the outcome is
absent/pending regardless of the declared weight, and minus the absolute
declared weight when the outcome is present and not `good`
(in particular when it is `bad`). -/
theorem C5_attempt_slot_encoding
    (d : RawDoc) (l : Lifter) (i lid nm : String) (n : Int) (w : ℚ)
    (hid : d._id = some i) (hi0 : i ≠ "") (hia : strStarts i "a" = true)
    (hlid : d.lifterId = some lid) (hlid0 : lid ≠ "")
    (hnm : d.liftName = some nm) (hnm0 : nm ≠ "")
    (hn : d.attemptNumber = some n) (h1 : 1 ≤ n) (h3 : n ≤ 3)
    (hw : d.weight = some w) (hl : l.id = lid)
    (hdisc : normLift nm = "squat" ∨ normLift nm = "bench" ∨
      normLift nm = "deadlift") :
    ∃ A l', processAttempts [{ doc := some d }] [l] = .ok (A, [l']) ∧
      (d.result.map strLower = some "good" →
        getLiftSlot l' (normLift nm) n = w) ∧
      (d.result = none → getLiftSlot l' (normLift nm) n = 0) ∧
      (∀ rs, d.result = some rs → strLower rs ≠ "good" →
        getLiftSlot l' (normLift nm) n = -|w|) := by
  rcases processAttempts_single d l i lid nm n hid hi0 hia hlid hlid0 hnm
    hnm0 hn h1 h3 hl hdisc with ⟨A, hA⟩
  refine ⟨A, _, hA, ?_, ?_, ?_⟩
  · intro hres
    rw [getLiftSlot_setLiftSlot l _ n _ hdisc h1 h3, hw, Option.getD_some,
      slotValue_good _ _ hres]
  · intro hres
    rw [getLiftSlot_setLiftSlot l _ n _ hdisc h1 h3, hres, hw,
      Option.getD_some, slotValue_pending]
  · intro rs hres hgood
    rw [getLiftSlot_setLiftSlot l _ n _ hdisc h1 h3, hres, hw,
      Option.getD_some, slotValue_failed rs w hgood]

/-- A pending bench opener: declared weight `105`, `result` unset. -/
def docC5 : RawDoc :=
  { emptyDoc with
    _id := some "a1-l1", lifterId := some "l1", liftName := some "bench",
    attemptNumber := some 1, weight := some 105 }

/-- C5 witness: the pending attempt encodes as `0` even though its declared
weight is `105`. -/
theorem C5_witness :
    ∃ A l', processAttempts [{ doc := some docC5 }] [baseLifter] =
        .ok (A, [l']) ∧
      (docC5.result.map strLower = some "good" →
        getLiftSlot l' (normLift "bench") 1 = 105) ∧
      (docC5.result = none → getLiftSlot l' (normLift "bench") 1 = 0) ∧
      (∀ rs, docC5.result = some rs → strLower rs ≠ "good" →
        getLiftSlot l' (normLift "bench") 1 = -|(105 : ℚ)|) :=
  C5_attempt_slot_encoding docC5 baseLifter "a1-l1" "l1" "bench" 1 105
    rfl (by decide) (by decide) rfl (by decide) rfl (by decide) rfl
    (by decide) (by decide) rfl rfl (Or.inr (Or.inl (by decide)))

/-- C10: when the attempt's `result` is present, any casing of `"good"`
encodes the slot as the (positive) declared weight, and every other string
— `"bad"`, `"no lift"`, unknown statuses — encodes it as minus the absolute
declared weight. -/
theorem C10_result_string_cases
    (d : RawDoc) (l : Lifter) (i lid nm rs : String) (n : Int) (w : ℚ)
    (hid : d._id = some i) (hi0 : i ≠ "") (hia : strStarts i "a" = true)
    (hlid : d.lifterId = some lid) (hlid0 : lid ≠ "")
    (hnm : d.liftName = some nm) (hnm0 : nm ≠ "")
    (hn : d.attemptNumber = some n) (h1 : 1 ≤ n) (h3 : n ≤ 3)
    (hw : d.weight = some w) (hl : l.id = lid)
    (hdisc : normLift nm = "squat" ∨ normLift nm = "bench" ∨
      normLift nm = "deadlift")
    (hr : d.result = some rs) :
    ∃ A l', processAttempts [{ doc := some d }] [l] = .ok (A, [l']) ∧
      (strLower rs = "good" → getLiftSlot l' (normLift nm) n = w) ∧
      (strLower rs ≠ "good" → getLiftSlot l' (normLift nm) n = -|w|) := by
  rcases processAttempts_single d l i lid nm n hid hi0 hia hlid hlid0 hnm
    hnm0 hn h1 h3 hl hdisc with ⟨A, hA⟩
  refine ⟨A, _, hA, ?_, ?_⟩
  · intro hgood
    rw [getLiftSlot_setLiftSlot l _ n _ hdisc h1 h3, hw, Option.getD_some,
      slotValue_good _ _ (by rw [hr]; simpa using hgood)]
  · intro hgood
    rw [getLiftSlot_setLiftSlot l _ n _ hdisc h1 h3, hr, hw,
      Option.getD_some, slotValue_failed rs w hgood]

/-- A squat attempt judged `"GOOD"` (uppercase). -/
def docC10good : RawDoc :=
  { emptyDoc with
    _id := some "a2-l1", lifterId := some "l1", liftName := some "squat",
    attemptNumber := some 2, weight := some 170, result := some "GOOD" }

/-- A deadlift attempt with the unrecognized status `"no lift"`. -/
def docC10bad : RawDoc :=
  { emptyDoc with
    _id := some "a3-l1", lifterId := some "l1", liftName := some "dead",
    attemptNumber := some 3, weight := some 200, result := some "no lift" }

/-- C10 witness: `"GOOD"` counts as a successful lift and `"no lift"` as a
failed one. -/
theorem C10_witness :
    (∃ A l', processAttempts [{ doc := some docC10good }] [baseLifter] =
        .ok (A, [l']) ∧
      (strLower "GOOD" = "good" → getLiftSlot l' (normLift "squat") 2 = 170) ∧
      (strLower "GOOD" ≠ "good" →
        getLiftSlot l' (normLift "squat") 2 = -|(170 : ℚ)|)) ∧
    (∃ A l', processAttempts [{ doc := some docC10bad }] [baseLifter] =
        .ok (A, [l']) ∧
      (strLower "no lift" = "good" →
        getLiftSlot l' (normLift "dead") 3 = 200) ∧
      (strLower "no lift" ≠ "good" →
        getLiftSlot l' (normLift "dead") 3 = -|(200 : ℚ)|)) :=
  ⟨C10_result_string_cases docC10good baseLifter "a2-l1" "l1" "squat" "GOOD"
      2 170 rfl (by decide) (by decide) rfl (by decide) rfl (by decide) rfl
      (by decide) (by decide) rfl rfl (Or.inl (by decide)) rfl,
    C10_result_string_cases docC10bad baseLifter "a3-l1" "l1" "dead"
      "no lift" 3 200 rfl (by decide) (by decide) rfl (by decide) rfl
      (by decide) rfl (by decide) (by decide) rfl rfl
      (Or.inr (Or.inr (by decide))) rfl⟩

/-! ## C7: referee lights -/

theorem charsLe_total : ∀ a b : List Char,
    charsLe a b = true ∨ charsLe b a = true
  | [], _ => Or.inl rfl
  | _ :: _, [] => Or.inr rfl
  | c :: cs, d :: ds => by
    rcases lt_trichotomy c d with h | h | h
    · exact Or.inl (by simp [charsLe, h])
    · subst h
      rcases charsLe_total cs ds with hh | hh
      · exact Or.inl (by simp [charsLe, lt_irrefl, hh])
      · exact Or.inr (by simp [charsLe, lt_irrefl, hh])
    · exact Or.inr (by simp [charsLe, h])

theorem charsLe_trans : ∀ a b c : List Char, charsLe a b = true →
    charsLe b c = true → charsLe a c = true
  | [], _, _, _, _ => rfl
  | _ :: _, [], _, h1, _ => by cases h1
  | _ :: _, _ :: _, [], _, h2 => by cases h2
  | x :: xs, y :: ys, z :: zs, h1, h2 => by
    unfold charsLe at h1 h2 ⊢
    by_cases hxy : x < y
    · by_cases hyz : y < z
      · rw [if_pos (lt_trans hxy hyz)]
      · rw [if_neg hyz] at h2
        by_cases hzy : z < y
        · rw [if_pos hzy] at h2
          cases h2
        · have hyzeq : y = z := le_antisymm (not_lt.mp hzy) (not_lt.mp hyz)
          rw [if_pos (hyzeq ▸ hxy)]
    · rw [if_neg hxy] at h1
      by_cases hyx : y < x
      · rw [if_pos hyx] at h1
        cases h1
      · have hxyeq : x = y := le_antisymm (not_lt.mp hyx) (not_lt.mp hxy)
        subst hxyeq
        rw [if_neg (lt_irrefl x)] at h1
        by_cases hxz : x < z
        · rw [if_pos hxz]
        · rw [if_neg hxz] at h2 ⊢
          by_cases hzx : z < x
          · rw [if_pos hzx] at h2
            cases h2
          · rw [if_neg hzx] at h2 ⊢
            exact charsLe_trans xs ys zs h1 h2

theorem refLe_total (a b : Referee) : refLe a b = true ∨ refLe b a = true :=
  charsLe_total a.position.data b.position.data

theorem refLe_trans (a b c : Referee) (h1 : refLe a b = true)
    (h2 : refLe b c = true) : refLe a c = true :=
  charsLe_trans a.position.data b.position.data c.position.data h1 h2

/-- C7: after light aggregation, every platform's light vector is the
per-referee boolean image of that platform's referees sorted by seating
position: it has one entry per recorded referee (not a fixed three), in
position order, and an entry is `true` exactly when that referee's decision
is `"good"` (`false` for `bad`, unset or missing decisions). -/
theorem C7_referee_lights (platforms : List (String × Platform))
    (referees : List (String × Referee)) (k : String) (p : Platform)
    (hp : (k, p) ∈ processRefereeLights platforms referees) :
    ∃ s : List Referee,
      s.Perm ((referees.map Prod.snd).filter
        (fun r => decide (r.platformId = p.id))) ∧
      (s.Pairwise fun a b => strLe a.position b.position = true) ∧
      p.lights = s.map (fun r => decide (r.decision = some "good")) ∧
      p.lights.length = ((referees.map Prod.snd).filter
        (fun r => decide (r.platformId = p.id))).length := by
  rcases List.mem_map.mp hp with ⟨⟨k0, p0⟩, hmem, heq⟩
  have hk : k0 = k := congrArg Prod.fst heq
  have hpp : ({ p0 with
      lights := (sortedRefsFor (referees.map Prod.snd) p0.id).map
        (fun r => decide (r.decision = some "good")) } : Platform) = p :=
    congrArg Prod.snd heq
  subst hpp
  refine ⟨sortedRefsFor (referees.map Prod.snd) p0.id,
    sortLe_perm refLe _, ?_, rfl, ?_⟩
  · exact sortLe_pairwise refLe refLe_total refLe_trans _
  · show ((sortedRefsFor (referees.map Prod.snd) p0.id).map
      (fun r => decide (r.decision = some "good"))).length = _
    rw [List.length_map]
    exact (sortLe_perm refLe _).length_eq

/-- Two referees on platform `"p1"` (and one on another platform): decisions
`good` at position `"L"`, `bad` at position `"R"`. -/
def refA : Referee :=
  { id := "r1", platformId := "p1", position := "L",
    decision := some "good", cards := none }

def refB : Referee :=
  { id := "r2", platformId := "p1", position := "R",
    decision := some "bad", cards := none }

def refC : Referee :=
  { id := "r3", platformId := "p2", position := "L", decision := none,
    cards := none }

def platP1 : Platform :=
  { id := "p1", name := "Platform 1", timerRemaining := 60,
    clockTimerLength := none, barAndCollarsWeight := none,
    currentAttemptId := none, lights := [] }

/-- The platform entry produced by light aggregation at the concrete
example below. -/
def platP1out : Platform :=
  ((processRefereeLights [("p1", platP1)]
    [("r1", refA), ("r2", refB), ("r3", refC)]).headD ("", platP1)).2

/-- C7 witness: the spec's example — decisions `["good","bad"]` at
positions `["L","R"]` yield the light vector `[true, false]`. -/
theorem C7_witness :
    (∃ s : List Referee,
      s.Perm (([refA, refB, refC].filter
        (fun r => decide (r.platformId = platP1out.id)))) ∧
      (s.Pairwise fun a b => strLe a.position b.position = true) ∧
      platP1out.lights = s.map (fun r => decide (r.decision = some "good")) ∧
      platP1out.lights.length = ([refA, refB, refC].filter
        (fun r => decide (r.platformId = platP1out.id))).length) ∧
    platP1out.lights = [true, false] :=
  ⟨C7_referee_lights [("p1", platP1)]
      [("r1", refA), ("r2", refB), ("r3", refC)] "p1" platP1out (by decide),
    by decide⟩

/-! ## C4: weight-class resolution -/

theorem ratLe_total (a b : ℚ) : ratLe a b = true ∨ ratLe b a = true := by
  unfold ratLe
  rcases le_total a b with h | h
  · exact Or.inl (decide_eq_true h)
  · exact Or.inr (decide_eq_true h)

theorem ratLe_trans (a b c : ℚ) (h1 : ratLe a b = true)
    (h2 : ratLe b c = true) : ratLe a c = true :=
  decide_eq_true (le_trans (of_decide_eq_true h1) (of_decide_eq_true h2))

theorem tableFor_pairwise (cfg : FedWeightClasses) (sexU : String) :
    (tableFor (mapWeightClasses cfg) sexU).Pairwise
      fun a b => ratLe a b = true := by
  unfold tableFor
  split
  · exact sortLe_pairwise ratLe ratLe_total ratLe_trans _
  · split
    · exact sortLe_pairwise ratLe ratLe_total ratLe_trans _
    · exact sortLe_pairwise ratLe ratLe_total ratLe_trans _

theorem findClass_ne_zero (bw : ℚ) :
    ∀ l : List ℚ, l ≠ [] → findClass bw l ≠ .zero
  | [], h => absurd rfl h
  | [_], _ => by
    unfold findClass
    split <;> simp
  | _ :: w' :: rest, _ => by
    unfold findClass
    split
    · simp
    · exact findClass_ne_zero bw (w' :: rest) (by simp)

theorem findClass_cls (bw : ℚ) :
    ∀ l : List ℚ, (l.Pairwise fun a b => ratLe a b = true) → ∀ w : ℚ,
    findClass bw l = .cls w →
    w ∈ l ∧ bw ≤ w ∧ ∀ v ∈ l, bw ≤ v → w ≤ v
  | [], _, w, h => by cases h
  | [u], _, w, h => by
    unfold findClass at h
    split at h
    · cases h
      refine ⟨List.mem_singleton_self u, by assumption, ?_⟩
      intro v hv _
      rw [List.mem_singleton.mp hv]
    · cases h
  | u :: u' :: rest, hpw, w, h => by
    rcases List.pairwise_cons.mp hpw with ⟨hu, hpw'⟩
    unfold findClass at h
    split at h
    case isTrue hbu =>
      cases h
      refine ⟨List.mem_cons_self u _, hbu, ?_⟩
      intro v hv _
      rcases List.mem_cons.mp hv with rfl | hv'
      · exact le_refl v
      · exact of_decide_eq_true (hu v hv')
    case isFalse hbu =>
      rcases findClass_cls bw (u' :: rest) hpw' w h with ⟨hmem, hbw, hmin⟩
      refine ⟨List.mem_cons_of_mem u hmem, hbw, ?_⟩
      intro v hv hbv
      rcases List.mem_cons.mp hv with rfl | hv'
      · exact absurd hbv hbu
      · exact hmin v hv' hbv

theorem findClass_clsPlus (bw : ℚ) :
    ∀ l : List ℚ, (l.Pairwise fun a b => ratLe a b = true) → ∀ w : ℚ,
    findClass bw l = .clsPlus w →
    w ∈ l ∧ (∀ v ∈ l, v ≤ w) ∧ ∀ v ∈ l, v < bw
  | [], _, w, h => by cases h
  | [u], _, w, h => by
    unfold findClass at h
    split at h
    · cases h
    case isFalse hbu =>
      cases h
      refine ⟨List.mem_singleton_self u, ?_, ?_⟩ <;> intro v hv <;>
        rw [List.mem_singleton.mp hv]
      · exact not_le.mp hbu
  | u :: u' :: rest, hpw, w, h => by
    rcases List.pairwise_cons.mp hpw with ⟨hu, hpw'⟩
    unfold findClass at h
    split at h
    · cases h
    case isFalse hbu =>
      rcases findClass_clsPlus bw (u' :: rest) hpw' w h with
        ⟨hmem, hmax, hlt⟩
      refine ⟨List.mem_cons_of_mem u hmem, ?_, ?_⟩ <;> intro v hv <;>
        rcases List.mem_cons.mp hv with rfl | hv'
      · exact of_decide_eq_true (hu w hmem)
      · exact hmax v hv'
      · exact not_le.mp hbu
      · exact hlt v hv'

/-- A configuration with male boundaries but an empty female table. -/
def cfgC4 : FedWeightClasses := { male := [some 60], female := [] }

/-- C4 counterexample: the claim says the male table is used whenever the
requested sex has no configured boundaries; but `thresholds` always holds
(a possibly empty) array for `FEMALE`, and a JS array is truthy, so the
`|| thresholds["MALE"]` fallback never fires for a configured-but-empty
sex: the resolver returns `"0"` instead of the male-table class. -/
theorem C4_counterexample :
    resolve cfgC4 (some "FEMALE") (some 55) = WCLabel.zero ∧
    resolve cfgC4 (some "FEMALE") (some 55) ≠ WCLabel.cls 60 ∧
    resolve cfgC4 (some "MALE") (some 55) = WCLabel.cls 60 :=
  ⟨by decide, by decide, by decide⟩

/-- C4 amended: `resolve` returns `"0"` when bodyweight or sex is absent or
falsy; the boundary table consulted is the uppercased sex's own table, the
male table being used only when the uppercased sex is neither `"MALE"` nor
`"FEMALE"` (an empty table for a configured sex yields `"0"`, with no male
fallback); on a non-empty table it returns the label of the smallest
boundary `≥` bodyweight, or the top boundary's label suffixed `"+"` when
bodyweight exceeds every boundary. -/
theorem C4_amended (cfg : FedWeightClasses) (s : String) (b : ℚ) :
    resolve cfg none (some b) = .zero ∧
    resolve cfg (some s) none = .zero ∧
    resolve cfg (some s) (some 0) = .zero ∧
    resolve cfg (some "") (some b) = .zero ∧
    (strUpper s ≠ "MALE" → strUpper s ≠ "FEMALE" →
      tableFor (mapWeightClasses cfg) (strUpper s) =
        (mapWeightClasses cfg).male) ∧
    (s ≠ "" → b ≠ 0 →
      (tableFor (mapWeightClasses cfg) (strUpper s) = [] →
        resolve cfg (some s) (some b) = .zero) ∧
      (tableFor (mapWeightClasses cfg) (strUpper s) ≠ [] →
        resolve cfg (some s) (some b) ≠ .zero) ∧
      (∀ w, resolve cfg (some s) (some b) = .cls w →
        w ∈ tableFor (mapWeightClasses cfg) (strUpper s) ∧ b ≤ w ∧
        ∀ v ∈ tableFor (mapWeightClasses cfg) (strUpper s), b ≤ v → w ≤ v) ∧
      (∀ w, resolve cfg (some s) (some b) = .clsPlus w →
        w ∈ tableFor (mapWeightClasses cfg) (strUpper s) ∧
        (∀ v ∈ tableFor (mapWeightClasses cfg) (strUpper s), v ≤ w) ∧
        ∀ v ∈ tableFor (mapWeightClasses cfg) (strUpper s), v < b)) := by
  refine ⟨rfl, rfl, ?_, ?_, ?_, ?_⟩
  · show getWeightClass _ _ _ = _
    simp [getWeightClass]
  · show getWeightClass _ _ _ = _
    simp [getWeightClass]
  · intro hm hf
    unfold tableFor
    rw [if_neg hm, if_neg hf]
  · intro hs hb
    have hres : resolve cfg (some s) (some b) =
        findClass b (tableFor (mapWeightClasses cfg) (strUpper s)) := by
      show getWeightClass _ _ _ = _
      simp [getWeightClass, hb, hs]
    refine ⟨?_, ?_, ?_, ?_⟩
    · intro hempty
      rw [hres, hempty]
      rfl
    · intro hne
      rw [hres]
      exact findClass_ne_zero b _ hne
    · intro w hw
      rw [hres] at hw
      exact findClass_cls b _ (tableFor_pairwise cfg (strUpper s)) w hw
    · intro w hw
      rw [hres] at hw
      exact findClass_clsPlus b _ (tableFor_pairwise cfg (strUpper s)) w hw

/-- A two-class male table. -/
def cfgC4W : FedWeightClasses := { male := [some 75, some 60], female := [] }

/-- C4 witness: at bodyweight `61` with sex `"Male"`, resolution picks `75`,
the smallest configured boundary of the (sorted) male table that is
`≥ 61`. -/
theorem C4_witness :
    (75 : ℚ) ∈ tableFor (mapWeightClasses cfgC4W) (strUpper "Male") ∧
    (61 : ℚ) ≤ 75 ∧
    ∀ v ∈ tableFor (mapWeightClasses cfgC4W) (strUpper "Male"),
      (61 : ℚ) ≤ v → (75 : ℚ) ≤ v :=
  ((C4_amended cfgC4W "Male" 61).2.2.2.2.2 (by decide) (by decide)).2.2.1
    75 (by decide)
